import Mathlib

/-!
Shallow embedding of the runner task orchestrator (src/runner/__init__.py):
the process supervisor `run_task`, the execution engine `process_taskdir`
(attempt loop over a resolved task order), and the run driver `runner`.
External process behaviour is supplied by oracles; executions produce an
event trace so that claims about which commands run, with which paths and
time limits, can be stated and proved.
-/

/-- Task outcome as returned by `run_task`: one of the strings
OK, HALT, RETRY in the source. -/
inductive Outcome
| OK
| RETRY
| HALT
deriving DecidableEq

/-- Exit-code mapping at the end of `run_task` (lines 38-44):
`rv == 0` gives OK, `rv == 2` gives HALT, anything else RETRY. -/
def exitCodeOutcome (code : Int) : Outcome :=
  if code = 0 then Outcome.OK
  else if code = 2 then Outcome.HALT
  else Outcome.RETRY

/-- Observable actions of one `run_task` invocation on its process:
`wait` models `proc.wait()` (the process exited on its own and was
reaped), `term` models `proc.terminate()` on timeout. -/
inductive REv
| wait
| term
deriving DecidableEq

/-- Whether the spawned process has already exited when polled at
elapsed time `e`: `exitTime = none` models a process that never exits,
`some te` a process that exits at wall time `te`. -/
def procExited (exitTime : Option Nat) (e : Nat) : Bool :=
  match exitTime with
  | none => false
  | some te => decide (te ≤ e)

/-- The polling loop of `run_task` (lines 22-44). Each iteration first
polls the process; if it has exited the loop breaks and `proc.wait()`
maps the exit code. Otherwise with `max_time == 0` it sleeps 20 seconds,
with a finite budget it terminates the process and returns RETRY as soon
as elapsed time exceeds `max_time`, and sleeps 1 second otherwise.
`fuel` bounds the number of loop iterations; `none` models a loop still
running after `fuel` iterations. -/
def run_task_go (exitTime : Option Nat) (code : Int) (max_time : Nat) :
    Nat → Nat → Option (Outcome × List REv)
  | _, 0 => none
  | elapsed, fuel + 1 =>
    if procExited exitTime elapsed then
      some (exitCodeOutcome code, [REv.wait])
    else if max_time = 0 then
      run_task_go exitTime code max_time (elapsed + 20) fuel
    else if max_time < elapsed then
      some (Outcome.RETRY, [REv.term])
    else
      run_task_go exitTime code max_time (elapsed + 1) fuel

/-- `run_task(t, env, max_time)` (lines 19-44) on a process whose
behaviour is described by `exitTime` and `code`, starting at elapsed
time 0. -/
def run_task (exitTime : Option Nat) (code : Int) (max_time fuel : Nat) :
    Option (Outcome × List REv) :=
  run_task_go exitTime code max_time 0 fuel

theorem run_task_go_wait_result (exitTime : Option Nat) (code : Int) (max_time : Nat) :
    ∀ fuel elapsed o evs,
      run_task_go exitTime code max_time elapsed fuel = some (o, evs) →
      REv.wait ∈ evs → o = exitCodeOutcome code := by
  intro fuel
  induction fuel with
  | zero =>
    intro elapsed o evs h
    simp [run_task_go] at h
  | succ n ih =>
    intro elapsed o evs h hw
    rw [run_task_go] at h
    by_cases hex : procExited exitTime elapsed
    · simp only [hex, if_true] at h
      obtain ⟨ho, _⟩ := Prod.mk.injEq .. ▸ Option.some.injEq .. ▸ h
      exact ho.symm
    · simp only [hex, if_false, Bool.false_eq_true] at h
      by_cases hm : max_time = 0
      · rw [if_pos hm] at h
        exact ih _ _ _ h hw
      · rw [if_neg hm] at h
        by_cases hlt : max_time < elapsed
        · rw [if_pos hlt] at h
          obtain ⟨_, hevs⟩ := Prod.mk.injEq .. ▸ Option.some.injEq .. ▸ h
          rw [← hevs] at hw
          simp at hw
        · rw [if_neg hlt] at h
          exact ih _ _ _ h hw

/-- Claim C3: whenever `run_task` observes the spawned process exit on
its own (a `wait` happened), the returned outcome is determined solely
by the exit code — 0 maps to OK, 2 to HALT, every other code to RETRY —
and is always one of the three values. -/
theorem claim_C3_exit_code_mapping (exitTime : Option Nat) (code : Int)
    (max_time fuel : Nat) (o : Outcome) (evs : List REv)
    (h : run_task exitTime code max_time fuel = some (o, evs))
    (hexit : REv.wait ∈ evs) :
    o = (if code = 0 then Outcome.OK
         else if code = 2 then Outcome.HALT
         else Outcome.RETRY)
    ∧ (o = Outcome.OK ∨ o = Outcome.RETRY ∨ o = Outcome.HALT) := by
  have ho := run_task_go_wait_result exitTime code max_time fuel 0 o evs h hexit
  constructor
  · rw [ho]; rfl
  · cases o
    · exact Or.inl rfl
    · exact Or.inr (Or.inl rfl)
    · exact Or.inr (Or.inr rfl)

/-- Witness for claim C3: a process that exits at time 0 with code 5
under a 3-second budget yields RETRY via the wait path. -/
theorem claim_C3_witness :
    run_task (some 0) 5 3 2 = some (Outcome.RETRY, [REv.wait])
    ∧ (Outcome.RETRY = (if (5 : Int) = 0 then Outcome.OK
                        else if (5 : Int) = 2 then Outcome.HALT
                        else Outcome.RETRY)
       ∧ (Outcome.RETRY = Outcome.OK ∨ Outcome.RETRY = Outcome.RETRY
          ∨ Outcome.RETRY = Outcome.HALT)) :=
  ⟨by decide, claim_C3_exit_code_mapping (some 0) 5 3 2 Outcome.RETRY [REv.wait]
      (by decide) (by decide)⟩

theorem run_task_go_timeout_aux (exitTime : Option Nat) (code : Int) (max_time : Nat)
    (hpos : 0 < max_time)
    (hnoexit : ∀ e, e ≤ max_time + 1 → procExited exitTime e = false) :
    ∀ fuel elapsed, elapsed ≤ max_time + 1 → max_time + 2 - elapsed ≤ fuel →
      run_task_go exitTime code max_time elapsed fuel
        = some (Outcome.RETRY, [REv.term]) := by
  intro fuel
  induction fuel with
  | zero =>
    intro elapsed hle hfu
    omega
  | succ n ih =>
    intro elapsed hle hfu
    rw [run_task_go]
    rw [hnoexit elapsed hle]
    simp only [Bool.false_eq_true, if_false]
    have hm : ¬ max_time = 0 := by omega
    simp only [hm, if_false]
    by_cases hlt : max_time < elapsed
    · simp only [hlt, if_true]
    · simp only [hlt, if_false]
      exact ih (elapsed + 1) (by omega) (by omega)

/-- Claim C4: with a finite budget (`max_time > 0`), if the process has
not exited by the poll at which elapsed time first exceeds `max_time`,
`run_task` terminates the process and immediately returns RETRY: the
event trace is exactly one `term`, with no `wait` — the supervisor does
not wait for the process to actually exit. -/
theorem claim_C4_timeout_terminate (exitTime : Option Nat) (code : Int)
    (max_time fuel : Nat)
    (hpos : 0 < max_time)
    (hnoexit : ∀ e, e ≤ max_time + 1 → procExited exitTime e = false)
    (hfuel : max_time + 2 ≤ fuel) :
    run_task exitTime code max_time fuel = some (Outcome.RETRY, [REv.term]) := by
  exact run_task_go_timeout_aux exitTime code max_time hpos hnoexit fuel 0
    (by omega) (by omega)

/-- Witness for claim C4: a process that never exits under a 1-second
budget is terminated and reported RETRY. -/
theorem claim_C4_witness :
    (0 < 1 ∧ (∀ e, e ≤ 1 + 1 → procExited none e = false) ∧ 1 + 2 ≤ 3)
    ∧ run_task none 0 1 3 = some (Outcome.RETRY, [REv.term]) :=
  ⟨⟨by decide, fun e _ => rfl, by decide⟩,
    claim_C4_timeout_terminate none 0 1 3 (by decide) (fun e _ => rfl) (by decide)⟩

/-- Command handed to `run_task`: either a bare path or a path wrapped
by an interpreter template (`shlex.split` of interpreter plus quoted
path, lines 99-103 and 114-117). -/
inductive Cmd
| plain (path : String)
| withInterp (interp : String) (path : String)
deriving DecidableEq

/-- Wrap `path` with an interpreter when one is configured (a configured
interpreter is a truthy string in the source). -/
def mkCmd (interp : Option String) (path : String) : Cmd :=
  match interp with
  | some i => Cmd.withInterp i path
  | none => Cmd.plain path

/-- Model of `os.path.join(dirname, t)`. -/
def joinPath (d t : String) : String := d ++ "/" ++ t

/-- Global run configuration as read in `process_taskdir` (lines 72-77
and the `config.*` attributes used there); optional strings are `none`
when falsy in the source. -/
structure RConfig where
  max_time : Nat
  max_tries : Nat
  sleep_time : Nat
  interpreter : Option String
  pre_task_hook : Option String
  post_task_hook : Option String
  halt_task : String

/-- Per-task configuration section restricted to the four overridable
keys (lines 82-83): each field is `some v` when the task section sets
that key. -/
structure TaskOverride where
  max_time : Option Nat := none
  max_tries : Option Nat := none
  sleep_time : Option Nat := none
  interpreter : Option (Option String) := none

/-- Effective configuration for one task. -/
structure EffConfig where
  max_time : Nat
  max_tries : Nat
  sleep_time : Nat
  interpreter : Option String

/-- Overlay of a task's override on the global defaults (lines 86-88:
every key missing from the task section is filled from
`default_config`). -/
def effConfig (c : RConfig) (o : TaskOverride) : EffConfig :=
  { max_time := o.max_time.getD c.max_time
    max_tries := o.max_tries.getD c.max_tries
    sleep_time := o.sleep_time.getD c.sleep_time
    interpreter := o.interpreter.getD c.interpreter }

/-- The halt command built on lines 113-117: the task directory joined
with the halt task name, wrapped by the global interpreter when one is
configured. -/
def haltCmdOf (c : RConfig) (dirname : String) : Cmd :=
  mkCmd c.interpreter (joinPath dirname c.halt_task)

/-- Trace events of `process_taskdir`: each external command invocation
and each inter-attempt sleep, tagged with the attempt number
(`try_num`). Hook and halt events record the ignored outcome of their
own `run_task` call. -/
inductive Ev
| preHook (tryn : Nat) (task : String) (r : Outcome)
| taskRun (tryn : Nat) (task : String) (cmd : Cmd) (max_time : Nat) (r : Outcome)
| postHook (tryn : Nat) (task : String) (r : Outcome)
| halt (tryn : Nat) (cmd : Cmd) (max_time : Nat) (r : Outcome)
| sleepEv (tryn : Nat) (secs : Nat)
deriving DecidableEq

/-- Outcomes of the external processes spawned during a run, indexed by
attempt number and task name: `res` for the main tasks, `preRes` and
`postRes` for the hooks, `haltRes` for the halt command. -/
structure Oracles where
  res : Nat → String → Outcome
  preRes : Nat → String → Outcome
  postRes : Nat → String → Outcome
  haltRes : Nat → Outcome

/-- Events produced while running one task inside a pass, before the
branch on its outcome (lines 92-111): optional pre-task hook, the task
itself with its effective interpreter and max time, optional post-task
hook. -/
def taskEvents (c : RConfig) (ov : String → TaskOverride) (d : String)
    (os : Oracles) (tryn : Nat) (t : String) : List Ev :=
  (match c.pre_task_hook with
   | some _ => [Ev.preHook tryn t (os.preRes tryn t)]
   | none => []) ++
  [Ev.taskRun tryn t (mkCmd (effConfig c (ov t)).interpreter (joinPath d t))
    (effConfig c (ov t)).max_time (os.res tryn t)] ++
  (match c.post_task_hook with
   | some _ => [Ev.postHook tryn t (os.postRes tryn t)]
   | none => [])

/-- How one pass over the task list ends: `completed` is the for-else
branch (all tasks OK, line 137-139), `failed` is `return False`,
`retryBreak` is the sleep-and-break branch restarting the outer loop. -/
inductive PassResult
| completed
| failed
| retryBreak
deriving DecidableEq

/-- One pass of the inner `for t in task_list` loop (lines 80-139) at
attempt `tryn`, over the remaining task list: runs each task in order
and branches on its outcome — OK continues, RETRY halts and fails when
`tryn` equals the task's effective max tries and otherwise sleeps and
breaks, HALT halts and fails. -/
def runPass (c : RConfig) (ov : String → TaskOverride) (d : String)
    (os : Oracles) (tryn : Nat) : List String → List Ev × PassResult
  | [] => ([], PassResult.completed)
  | t :: rest =>
    match os.res tryn t with
    | Outcome.OK =>
      (taskEvents c ov d os tryn t ++ (runPass c ov d os tryn rest).1,
       (runPass c ov d os tryn rest).2)
    | Outcome.RETRY =>
      if tryn = (effConfig c (ov t)).max_tries then
        (taskEvents c ov d os tryn t ++
          [Ev.halt tryn (haltCmdOf c d) (effConfig c (ov t)).max_time (os.haltRes tryn)],
         PassResult.failed)
      else
        (taskEvents c ov d os tryn t ++
          [Ev.sleepEv tryn (effConfig c (ov t)).sleep_time],
         PassResult.retryBreak)
    | Outcome.HALT =>
      (taskEvents c ov d os tryn t ++
        [Ev.halt tryn (haltCmdOf c d) (effConfig c (ov t)).max_time (os.haltRes tryn)],
       PassResult.failed)

/-- The outer `for try_num in range(1, config.max_tries + 1)` loop
(line 79): `fuel` is the number of remaining attempt numbers. A
completed pass returns `some true` (`return True`), a failed pass
`some false` (`return False`), a retry-break moves to the next attempt;
exhausting the range falls off the function and returns `none`
(Python `None`). -/
def tryLoop (c : RConfig) (ov : String → TaskOverride) (d : String)
    (os : Oracles) (tasks : List String) : Nat → Nat → List Ev × Option Bool
  | _, 0 => ([], none)
  | tryn, fuel + 1 =>
    match (runPass c ov d os tryn tasks).2 with
    | PassResult.completed => ((runPass c ov d os tryn tasks).1, some true)
    | PassResult.failed => ((runPass c ov d os tryn tasks).1, some false)
    | PassResult.retryBreak =>
      ((runPass c ov d os tryn tasks).1 ++
        (tryLoop c ov d os tasks (tryn + 1) fuel).1,
       (tryLoop c ov d os tasks (tryn + 1) fuel).2)

/-- `process_taskdir(config, dirname)` (lines 47-139) after task
discovery and dependency resolution produced `tasks`: attempts run with
`try_num` from 1 to `config.max_tries`. -/
def process_taskdir (c : RConfig) (ov : String → TaskOverride) (d : String)
    (os : Oracles) (tasks : List String) : List Ev × Option Bool :=
  tryLoop c ov d os tasks 1 c.max_tries

/-- Names of the main tasks actually run, in order, as recorded in the
trace. -/
def taskNames (evs : List Ev) : List String :=
  evs.filterMap fun e =>
    match e with
    | Ev.taskRun _ n _ _ _ => some n
    | _ => none

/-- The halt-command invocations recorded in the trace. -/
def haltEvents (evs : List Ev) : List Ev :=
  evs.filter fun e =>
    match e with
    | Ev.halt _ _ _ _ => true
    | _ => false

/-- Events of a run of consecutive tasks that all returned OK. -/
def okRunEvents (c : RConfig) (ov : String → TaskOverride) (d : String)
    (os : Oracles) (tryn : Nat) : List String → List Ev
  | [] => []
  | t :: rest => taskEvents c ov d os tryn t ++ okRunEvents c ov d os tryn rest

theorem taskNames_append (a b : List Ev) :
    taskNames (a ++ b) = taskNames a ++ taskNames b := by
  simp [taskNames, List.filterMap_append]

theorem haltEvents_append (a b : List Ev) :
    haltEvents (a ++ b) = haltEvents a ++ haltEvents b := by
  simp [haltEvents, List.filter_append]

theorem taskNames_taskEvents (c : RConfig) (ov : String → TaskOverride)
    (d : String) (os : Oracles) (tryn : Nat) (t : String) :
    taskNames (taskEvents c ov d os tryn t) = [t] := by
  rcases hp : c.pre_task_hook with _ | v <;> rcases hq : c.post_task_hook with _ | w <;>
    simp [taskEvents, taskNames, hp, hq]

theorem haltEvents_taskEvents (c : RConfig) (ov : String → TaskOverride)
    (d : String) (os : Oracles) (tryn : Nat) (t : String) :
    haltEvents (taskEvents c ov d os tryn t) = [] := by
  rcases hp : c.pre_task_hook with _ | v <;> rcases hq : c.post_task_hook with _ | w <;>
    simp [taskEvents, haltEvents, hp, hq]

theorem taskNames_okRunEvents (c : RConfig) (ov : String → TaskOverride)
    (d : String) (os : Oracles) (tryn : Nat) (l : List String) :
    taskNames (okRunEvents c ov d os tryn l) = l := by
  induction l with
  | nil => simp [okRunEvents, taskNames]
  | cons x xs ih =>
    simp [okRunEvents, taskNames_append, taskNames_taskEvents, ih]

theorem haltEvents_okRunEvents (c : RConfig) (ov : String → TaskOverride)
    (d : String) (os : Oracles) (tryn : Nat) (l : List String) :
    haltEvents (okRunEvents c ov d os tryn l) = [] := by
  induction l with
  | nil => simp [okRunEvents, haltEvents]
  | cons x xs ih =>
    simp [okRunEvents, haltEvents_append, haltEvents_taskEvents, ih]

theorem runPass_append_ok (c : RConfig) (ov : String → TaskOverride)
    (d : String) (os : Oracles) (tryn : Nat) (l : List String) :
    ∀ pre, (∀ x ∈ pre, os.res tryn x = Outcome.OK) →
      runPass c ov d os tryn (pre ++ l)
        = (okRunEvents c ov d os tryn pre ++ (runPass c ov d os tryn l).1,
           (runPass c ov d os tryn l).2) := by
  intro pre
  induction pre with
  | nil =>
    intro _
    simp [okRunEvents]
  | cons x xs ih =>
    intro h
    have hx : os.res tryn x = Outcome.OK := h x (by simp)
    have hxs := ih (fun y hy => h y (by simp [hy]))
    simp only [List.cons_append, runPass, hx, List.append_eq, hxs, okRunEvents,
      List.append_assoc]

theorem taskNames_halt_single (tryn : Nat) (cm : Cmd) (mt : Nat) (r : Outcome) :
    taskNames [Ev.halt tryn cm mt r] = [] := rfl

theorem haltEvents_halt_single (tryn : Nat) (cm : Cmd) (mt : Nat) (r : Outcome) :
    haltEvents [Ev.halt tryn cm mt r] = [Ev.halt tryn cm mt r] := rfl

theorem runPass_cons_retry_max (c : RConfig) (ov : String → TaskOverride)
    (d : String) (os : Oracles) (tryn : Nat) (t : String) (rest : List String)
    (hr : os.res tryn t = Outcome.RETRY)
    (hmax : tryn = (effConfig c (ov t)).max_tries) :
    runPass c ov d os tryn (t :: rest)
      = (taskEvents c ov d os tryn t ++
          [Ev.halt tryn (haltCmdOf c d) (effConfig c (ov t)).max_time (os.haltRes tryn)],
         PassResult.failed) := by
  simp only [runPass, hr, if_pos hmax]

theorem runPass_cons_halt (c : RConfig) (ov : String → TaskOverride)
    (d : String) (os : Oracles) (tryn : Nat) (t : String) (rest : List String)
    (hr : os.res tryn t = Outcome.HALT) :
    runPass c ov d os tryn (t :: rest)
      = (taskEvents c ov d os tryn t ++
          [Ev.halt tryn (haltCmdOf c d) (effConfig c (ov t)).max_time (os.haltRes tryn)],
         PassResult.failed) := by
  simp only [runPass, hr]

theorem runPass_cons_retry_sleep (c : RConfig) (ov : String → TaskOverride)
    (d : String) (os : Oracles) (tryn : Nat) (t : String) (rest : List String)
    (hr : os.res tryn t = Outcome.RETRY)
    (hne : tryn ≠ (effConfig c (ov t)).max_tries) :
    runPass c ov d os tryn (t :: rest)
      = (taskEvents c ov d os tryn t ++
          [Ev.sleepEv tryn (effConfig c (ov t)).sleep_time],
         PassResult.retryBreak) := by
  simp only [runPass, hr, if_neg hne]

theorem tryLoop_of_failed (c : RConfig) (ov : String → TaskOverride)
    (d : String) (os : Oracles) (tasks : List String) (tryn fuel : Nat)
    (evs : List Ev)
    (h : runPass c ov d os tryn tasks = (evs, PassResult.failed)) :
    tryLoop c ov d os tasks tryn (fuel + 1) = (evs, some false) := by
  rw [tryLoop, h]

theorem tryLoop_of_completed (c : RConfig) (ov : String → TaskOverride)
    (d : String) (os : Oracles) (tasks : List String) (tryn fuel : Nat)
    (evs : List Ev)
    (h : runPass c ov d os tryn tasks = (evs, PassResult.completed)) :
    tryLoop c ov d os tasks tryn (fuel + 1) = (evs, some true) := by
  rw [tryLoop, h]

theorem tryLoop_of_retryBreak (c : RConfig) (ov : String → TaskOverride)
    (d : String) (os : Oracles) (tasks : List String) (tryn fuel : Nat)
    (evs : List Ev)
    (h : runPass c ov d os tryn tasks = (evs, PassResult.retryBreak)) :
    tryLoop c ov d os tasks tryn (fuel + 1)
      = (evs ++ (tryLoop c ov d os tasks (tryn + 1) fuel).1,
         (tryLoop c ov d os tasks (tryn + 1) fuel).2) := by
  rw [tryLoop, h]

/-- Claim C1: in any pass reaching a task that yields RETRY while the
attempt counter equals that task's effective max tries (lines 121-127),
the attempt loop invokes the halt command exactly once — path the task
directory joined with the halt task name, wrapped by the global
interpreter when configured, run with that task's effective max time —
and returns False immediately: no task after it runs and no further
attempt starts (the whole trace is the aborted pass). `process_taskdir`
is `tryLoop` started at attempt 1. -/
theorem claim_C1_retry_at_max_halts (c : RConfig) (ov : String → TaskOverride)
    (d : String) (os : Oracles) (pre rest : List String) (t : String)
    (tryn fuel : Nat)
    (hpre : ∀ x ∈ pre, os.res tryn x = Outcome.OK)
    (hr : os.res tryn t = Outcome.RETRY)
    (hmax : tryn = (effConfig c (ov t)).max_tries) :
    tryLoop c ov d os (pre ++ t :: rest) tryn (fuel + 1)
      = (okRunEvents c ov d os tryn pre ++
          (taskEvents c ov d os tryn t ++
            [Ev.halt tryn (haltCmdOf c d) (effConfig c (ov t)).max_time (os.haltRes tryn)]),
         some false)
    ∧ taskNames (tryLoop c ov d os (pre ++ t :: rest) tryn (fuel + 1)).1 = pre ++ [t]
    ∧ haltEvents (tryLoop c ov d os (pre ++ t :: rest) tryn (fuel + 1)).1
        = [Ev.halt tryn (haltCmdOf c d) (effConfig c (ov t)).max_time (os.haltRes tryn)] := by
  have hpass : runPass c ov d os tryn (pre ++ t :: rest)
      = (okRunEvents c ov d os tryn pre ++
          (taskEvents c ov d os tryn t ++
            [Ev.halt tryn (haltCmdOf c d) (effConfig c (ov t)).max_time (os.haltRes tryn)]),
         PassResult.failed) := by
    rw [runPass_append_ok c ov d os tryn (t :: rest) pre hpre,
      runPass_cons_retry_max c ov d os tryn t rest hr hmax]
  have hloop := tryLoop_of_failed c ov d os (pre ++ t :: rest) tryn fuel _ hpass
  refine ⟨hloop, ?_, ?_⟩
  · rw [hloop]
    simp only [taskNames_append, taskNames_okRunEvents, taskNames_taskEvents,
      taskNames_halt_single, List.append_nil]
  · rw [hloop]
    simp only [haltEvents_append, haltEvents_okRunEvents, haltEvents_taskEvents,
      haltEvents_halt_single, List.nil_append]

/-- Concrete configuration for the claim C1 witness. -/
def cfgC1 : RConfig :=
  { max_time := 7, max_tries := 2, sleep_time := 1, interpreter := some "python"
    pre_task_hook := none, post_task_hook := none, halt_task := "stop" }

/-- Concrete per-task overrides for the claim C1 witness. -/
def ovC1 : String → TaskOverride := fun _ => {}

/-- Concrete process outcomes for the claim C1 witness. -/
def osC1 : Oracles :=
  { res := fun _ x => if x = "b" then Outcome.RETRY else Outcome.OK
    preRes := fun _ _ => Outcome.OK
    postRes := fun _ _ => Outcome.OK
    haltRes := fun _ => Outcome.OK }

/-- Witness for claim C1 at attempt 2 of a run whose task b retries at
its effective limit of 2. -/
theorem claim_C1_witness :
    (∀ x ∈ ["a"], osC1.res 2 x = Outcome.OK)
    ∧ osC1.res 2 "b" = Outcome.RETRY
    ∧ 2 = (effConfig cfgC1 (ovC1 "b")).max_tries
    ∧ (tryLoop cfgC1 ovC1 "dir" osC1 (["a"] ++ "b" :: ["c"]) 2 (0 + 1)).2 = some false := by
  have h1 : ∀ x ∈ ["a"], osC1.res 2 x = Outcome.OK := by decide
  have h2 : osC1.res 2 "b" = Outcome.RETRY := by decide
  have h3 : (2 : Nat) = (effConfig cfgC1 (ovC1 "b")).max_tries := by decide
  refine ⟨h1, h2, h3, ?_⟩
  have h := (claim_C1_retry_at_max_halts cfgC1 ovC1 "dir" osC1 ["a"] ["c"] "b" 2 0
    h1 h2 h3).1
  exact congrArg Prod.snd h

/-- Claim C5: in any pass reaching a task that yields HALT (lines
132-136), the attempt loop invokes the halt command exactly once and
returns False immediately, regardless of the attempt counter value: no
subsequent task of the pass runs. -/
theorem claim_C5_halt_outcome (c : RConfig) (ov : String → TaskOverride)
    (d : String) (os : Oracles) (pre rest : List String) (t : String)
    (tryn fuel : Nat)
    (hpre : ∀ x ∈ pre, os.res tryn x = Outcome.OK)
    (hr : os.res tryn t = Outcome.HALT) :
    tryLoop c ov d os (pre ++ t :: rest) tryn (fuel + 1)
      = (okRunEvents c ov d os tryn pre ++
          (taskEvents c ov d os tryn t ++
            [Ev.halt tryn (haltCmdOf c d) (effConfig c (ov t)).max_time (os.haltRes tryn)]),
         some false)
    ∧ taskNames (tryLoop c ov d os (pre ++ t :: rest) tryn (fuel + 1)).1 = pre ++ [t]
    ∧ haltEvents (tryLoop c ov d os (pre ++ t :: rest) tryn (fuel + 1)).1
        = [Ev.halt tryn (haltCmdOf c d) (effConfig c (ov t)).max_time (os.haltRes tryn)] := by
  have hpass : runPass c ov d os tryn (pre ++ t :: rest)
      = (okRunEvents c ov d os tryn pre ++
          (taskEvents c ov d os tryn t ++
            [Ev.halt tryn (haltCmdOf c d) (effConfig c (ov t)).max_time (os.haltRes tryn)]),
         PassResult.failed) := by
    rw [runPass_append_ok c ov d os tryn (t :: rest) pre hpre,
      runPass_cons_halt c ov d os tryn t rest hr]
  have hloop := tryLoop_of_failed c ov d os (pre ++ t :: rest) tryn fuel _ hpass
  refine ⟨hloop, ?_, ?_⟩
  · rw [hloop]
    simp only [taskNames_append, taskNames_okRunEvents, taskNames_taskEvents,
      taskNames_halt_single, List.append_nil]
  · rw [hloop]
    simp only [haltEvents_append, haltEvents_okRunEvents, haltEvents_taskEvents,
      haltEvents_halt_single, List.nil_append]

/-- Concrete configuration for the claim C5 witness. -/
def cfgC5 : RConfig :=
  { max_time := 10, max_tries := 3, sleep_time := 2, interpreter := none
    pre_task_hook := some "notify", post_task_hook := none, halt_task := "stop" }

/-- Concrete per-task overrides for the claim C5 witness. -/
def ovC5 : String → TaskOverride := fun _ => {}

/-- Concrete process outcomes for the claim C5 witness. -/
def osC5 : Oracles :=
  { res := fun _ x => if x = "b" then Outcome.HALT else Outcome.OK
    preRes := fun _ _ => Outcome.RETRY
    postRes := fun _ _ => Outcome.OK
    haltRes := fun _ => Outcome.OK }

/-- Witness for claim C5 at attempt 1, far below the retry budget. -/
theorem claim_C5_witness :
    (∀ x ∈ ["a"], osC5.res 1 x = Outcome.OK)
    ∧ osC5.res 1 "b" = Outcome.HALT
    ∧ (tryLoop cfgC5 ovC5 "dir" osC5 (["a"] ++ "b" :: ["c"]) 1 (2 + 1)).2 = some false := by
  have h1 : ∀ x ∈ ["a"], osC5.res 1 x = Outcome.OK := by decide
  have h2 : osC5.res 1 "b" = Outcome.HALT := by decide
  refine ⟨h1, h2, ?_⟩
  have h := (claim_C5_halt_outcome cfgC5 ovC5 "dir" osC5 ["a"] ["c"] "b" 1 2 h1 h2).1
  exact congrArg Prod.snd h

/-- Claim C2 (amended): in any pass reaching a task that yields RETRY
while the attempt counter differs from that task's effective max tries
(lines 128-131), the engine sleeps the task's effective sleep time and
abandons the rest of the pass. When a further attempt number remains in
the global range, the counter increments by one and the whole task list
restarts from its first task; when the current attempt was the last of
the range, no restart happens and the loop falls through with result
`none` (Python None). -/
theorem claim_C2_retry_restarts (c : RConfig) (ov : String → TaskOverride)
    (d : String) (os : Oracles) (pre rest : List String) (t : String)
    (tryn f : Nat)
    (hpre : ∀ x ∈ pre, os.res tryn x = Outcome.OK)
    (hr : os.res tryn t = Outcome.RETRY)
    (hne : tryn ≠ (effConfig c (ov t)).max_tries) :
    tryLoop c ov d os (pre ++ t :: rest) tryn (f + 2)
      = ((okRunEvents c ov d os tryn pre ++
          (taskEvents c ov d os tryn t ++
            [Ev.sleepEv tryn (effConfig c (ov t)).sleep_time])) ++
          (tryLoop c ov d os (pre ++ t :: rest) (tryn + 1) (f + 1)).1,
         (tryLoop c ov d os (pre ++ t :: rest) (tryn + 1) (f + 1)).2)
    ∧ tryLoop c ov d os (pre ++ t :: rest) tryn 1
      = (okRunEvents c ov d os tryn pre ++
          (taskEvents c ov d os tryn t ++
            [Ev.sleepEv tryn (effConfig c (ov t)).sleep_time]),
         none) := by
  have hpass : runPass c ov d os tryn (pre ++ t :: rest)
      = (okRunEvents c ov d os tryn pre ++
          (taskEvents c ov d os tryn t ++
            [Ev.sleepEv tryn (effConfig c (ov t)).sleep_time]),
         PassResult.retryBreak) := by
    rw [runPass_append_ok c ov d os tryn (t :: rest) pre hpre,
      runPass_cons_retry_sleep c ov d os tryn t rest hr hne]
  constructor
  · exact tryLoop_of_retryBreak c ov d os (pre ++ t :: rest) tryn (f + 1) _ hpass
  · have h0 := tryLoop_of_retryBreak c ov d os (pre ++ t :: rest) tryn 0 _ hpass
    rw [h0]
    simp [tryLoop]

/-- Concrete configuration for the claim C2 witness. -/
def cfgC2 : RConfig :=
  { max_time := 5, max_tries := 3, sleep_time := 4, interpreter := none
    pre_task_hook := none, post_task_hook := some "notify", halt_task := "stop" }

/-- Concrete per-task overrides for the claim C2 witness. -/
def ovC2 : String → TaskOverride := fun _ => {}

/-- Concrete process outcomes for the claim C2 witness. -/
def osC2 : Oracles :=
  { res := fun _ _ => Outcome.RETRY
    preRes := fun _ _ => Outcome.OK
    postRes := fun _ _ => Outcome.OK
    haltRes := fun _ => Outcome.OK }

/-- Witness for claim C2: a retry at attempt 1 of 3 hands control to
attempt 2 over the same task list. -/
theorem claim_C2_witness :
    (∀ x ∈ ([] : List String), osC2.res 1 x = Outcome.OK)
    ∧ osC2.res 1 "a" = Outcome.RETRY
    ∧ (1 : Nat) ≠ (effConfig cfgC2 (ovC2 "a")).max_tries
    ∧ (tryLoop cfgC2 ovC2 "dir" osC2 ([] ++ "a" :: []) 1 (1 + 2)).2
        = (tryLoop cfgC2 ovC2 "dir" osC2 ([] ++ "a" :: []) 2 (1 + 1)).2 := by
  have h1 : ∀ x ∈ ([] : List String), osC2.res 1 x = Outcome.OK := by simp
  have h2 : osC2.res 1 "a" = Outcome.RETRY := rfl
  have h3 : (1 : Nat) ≠ (effConfig cfgC2 (ovC2 "a")).max_tries := by decide
  refine ⟨h1, h2, h3, ?_⟩
  have h := (claim_C2_retry_restarts cfgC2 ovC2 "dir" osC2 [] [] "a" 1 1 h1 h2 h3).1
  rw [h]

/-- Concrete configuration refuting claim C2 as stated: global max
tries 1, while the task overrides its max tries to 5. -/
def cfgC2x : RConfig :=
  { max_time := 5, max_tries := 1, sleep_time := 4, interpreter := none
    pre_task_hook := none, post_task_hook := none, halt_task := "stop" }

/-- Per-task overrides refuting claim C2 as stated. -/
def ovC2x : String → TaskOverride := fun _ => { max_tries := some 5 }

/-- Process outcomes refuting claim C2 as stated: every attempt of
every task retries. -/
def osC2x : Oracles :=
  { res := fun _ _ => Outcome.RETRY
    preRes := fun _ _ => Outcome.OK
    postRes := fun _ _ => Outcome.OK
    haltRes := fun _ => Outcome.OK }

/-- Counterexample to claim C2 as stated: task a yields RETRY at
attempt 1 while the counter (1) is below its effective max tries (5),
yet the engine does not increment and restart — the trace shows task a
ran exactly once and the attempt loop fell through with `none`, so no
second pass ever started. -/
theorem claim_C2_counterexample :
    osC2x.res 1 "a" = Outcome.RETRY
    ∧ (1 : Nat) < (effConfig cfgC2x (ovC2x "a")).max_tries
    ∧ taskNames (process_taskdir cfgC2x ovC2x "dir" osC2x ["a"]).1 = ["a"]
    ∧ (process_taskdir cfgC2x ovC2x "dir" osC2x ["a"]).2 = none := by
  refine ⟨rfl, by decide, ?_, rfl⟩
  rfl

/-- How a `runner` invocation can end: `fail` models `exit(1)` on a
falsy pass result, `finished` models breaking out of the loop after the
requested number of iterations. -/
inductive RunnerExit
| fail
| finished
deriving DecidableEq

/-- The loop guard `if times and t > times: break` (line 166), with
Python truthiness: `times` of `None` — and also `0` — never breaks. -/
def timesBreak (timesv : Option Nat) (t : Nat) : Bool :=
  match timesv with
  | some n => decide (n ≠ 0) && decide (n < t)
  | none => false

/-- The `runner(config, taskdir, times)` loop (lines 158-170): iteration
counter `t` starts at 1; each surviving iteration runs
`process_taskdir`, whose result for iteration `t` the oracle `results`
reports; a falsy result (`False` or `None`) exits with status 1.
Returns the iterations that ran `process_taskdir`, and `none` while the
loop is still running after `fuel` iterations. -/
def runner_go (timesv : Option Nat) (results : Nat → Option Bool) :
    Nat → Nat → List Nat × Option RunnerExit
  | _, 0 => ([], none)
  | t, fuel + 1 =>
    if timesBreak timesv t then ([], some RunnerExit.finished)
    else
      match results t with
      | some true =>
        (t :: (runner_go timesv results (t + 1) fuel).1,
         (runner_go timesv results (t + 1) fuel).2)
      | _ => ([t], some RunnerExit.fail)

/-- `runner` starting from iteration 1. -/
def runner (timesv : Option Nat) (results : Nat → Option Bool) (fuel : Nat) :
    List Nat × Option RunnerExit :=
  runner_go timesv results 1 fuel

/-- Concrete configuration for claim C6: global max tries 2, while the
task overrides its max tries to 9, so the counter can never equal it. -/
def cfgC6 : RConfig :=
  { max_time := 5, max_tries := 2, sleep_time := 1, interpreter := none
    pre_task_hook := none, post_task_hook := none, halt_task := "stop" }

/-- Per-task overrides for claim C6. -/
def ovC6 : String → TaskOverride := fun _ => { max_tries := some 9 }

/-- Process outcomes for claim C6: every attempt of every task
retries. -/
def osC6 : Oracles :=
  { res := fun _ _ => Outcome.RETRY
    preRes := fun _ _ => Outcome.OK
    postRes := fun _ _ => Outcome.OK
    haltRes := fun _ => Outcome.OK }

/-- Claim C6: with a per-task max-tries override the counter never
reaches, a persistently retrying task makes the attempt loop exhaust
and fall through: `process_taskdir` returns `none` (Python None, not
False), the task was attempted on every pass yet no halt command ever
ran, and the run driver still treats the falsy `none` as a failed first
iteration and exits non-zero. -/
theorem claim_C6_exhaustion_without_halt :
    (process_taskdir cfgC6 ovC6 "dir" osC6 ["a"]).2 = none
    ∧ haltEvents (process_taskdir cfgC6 ovC6 "dir" osC6 ["a"]).1 = []
    ∧ taskNames (process_taskdir cfgC6 ovC6 "dir" osC6 ["a"]).1 = ["a", "a"]
    ∧ runner (some 3) (fun _ => (process_taskdir cfgC6 ovC6 "dir" osC6 ["a"]).2) 5
        = ([1], some RunnerExit.fail) :=
  ⟨rfl, rfl, rfl, rfl⟩

theorem runner_go_length_le (n : Nat) (results : Nat → Option Bool) (hn : 1 ≤ n) :
    ∀ fuel t, 1 ≤ t → (runner_go (some n) results t fuel).1.length ≤ n + 1 - t := by
  intro fuel
  induction fuel with
  | zero =>
    intro t _
    simp [runner_go]
  | succ m ih =>
    intro t ht
    rw [runner_go]
    by_cases hb : timesBreak (some n) t
    · rw [if_pos hb]
      simp
    · rw [if_neg hb]
      have htn : t ≤ n := by
        by_contra hgt
        apply hb
        simp only [timesBreak, Bool.and_eq_true, decide_eq_true_eq]
        omega
      rcases hres : results t with _ | b
      · simp
        omega
      · cases b
        · simp
          omega
        · have := ih (t + 1) (by omega)
          simp only [List.length_cons]
          omega

theorem runner_go_first_fail (n : Nat) (results : Nat → Option Bool) (t : Nat)
    (hfail : results t ≠ some true) (htn : t ≤ n) :
    ∀ fuel s, 1 ≤ s → s ≤ t → (∀ u, s ≤ u → u < t → results u = some true) →
      t - s < fuel →
      runner_go (some n) results s fuel
        = (List.range' s (t + 1 - s), some RunnerExit.fail) := by
  intro fuel
  induction fuel with
  | zero =>
    intro s _ _ _ hfu
    omega
  | succ m ih =>
    intro s hs1 hst hok hfu
    rw [runner_go]
    have hb : ¬ timesBreak (some n) s = true := by
      simp only [timesBreak, Bool.and_eq_true, decide_eq_true_eq]
      omega
    rw [if_neg hb]
    by_cases hest : s = t
    · subst hest
      rcases hres : results s with _ | b
      · simp only
        have : s + 1 - s = 1 := by omega
        rw [this]
        rfl
      · cases b
        · simp only
          have : s + 1 - s = 1 := by omega
          rw [this]
          rfl
        · exact absurd hres hfail
    · have hlt : s < t := by omega
      have hres : results s = some true := hok s (by omega) hlt
      rw [hres]
      rw [ih (s + 1) (by omega) (by omega) (fun u hu1 hu2 => hok u (by omega) hu2)
        (by omega)]
      have hk : t + 1 - s = (t + 1 - (s + 1)) + 1 := by omega
      rw [hk, List.range'_succ]

theorem runner_go_forever (results : Nat → Option Bool)
    (hall : ∀ t, results t = some true) :
    ∀ fuel t, (runner_go none results t fuel).2 = none := by
  intro fuel
  induction fuel with
  | zero =>
    intro t
    rfl
  | succ m ih =>
    intro t
    rw [runner_go]
    have hb : ¬ timesBreak none t = true := by
      simp [timesBreak]
    rw [if_neg hb, hall t]
    exact ih (t + 1)

/-- Claim C7 (amended): for every positive requested repeat count N the
run driver executes at most N iterations of `process_taskdir`; the
first iteration whose pass result is falsy exits with status 1 without
attempting any further iteration; and with no requested count the loop
never terminates when every pass succeeds. A requested count of 0 is
falsy in the loop guard and behaves like no count. -/
theorem claim_C7_run_driver :
    (∀ n results fuel, 1 ≤ n → (runner (some n) results fuel).1.length ≤ n)
    ∧ (∀ n results t fuel, 1 ≤ t → t ≤ n → results t ≠ some true →
        (∀ u, 1 ≤ u → u < t → results u = some true) → t - 1 < fuel →
        runner (some n) results fuel = (List.range' 1 t, some RunnerExit.fail))
    ∧ (∀ results fuel, (∀ t, results t = some true) →
        (runner none results fuel).2 = none) := by
  refine ⟨?_, ?_, ?_⟩
  · intro n results fuel hn
    have := runner_go_length_le n results hn fuel 1 (by omega)
    simpa [runner] using this
  · intro n results t fuel ht1 htn hfail hok hfu
    have := runner_go_first_fail n results t hfail htn fuel 1 (by omega) ht1
      (fun u hu1 hu2 => hok u hu1 hu2) hfu
    have hk : t + 1 - 1 = t := by omega
    rw [hk] at this
    simpa [runner] using this
  · intro results fuel hall
    exact runner_go_forever results hall fuel 1

/-- Witness for claim C7 at concrete counts: two successful iterations
under count 2; failure at iteration 2 of 3 stops the loop; an endless
all-success run with no count. -/
theorem claim_C7_witness :
    ((1 : Nat) ≤ 2 ∧ (runner (some 2) (fun _ => some true) 9).1.length ≤ 2)
    ∧ runner (some 3) (fun t => if t = 2 then some false else some true) 9
        = (List.range' 1 2, some RunnerExit.fail)
    ∧ (runner none (fun _ => some true) 7).2 = none := by
  refine ⟨⟨by decide, claim_C7_run_driver.1 2 (fun _ => some true) 9 (by decide)⟩, ?_, ?_⟩
  · refine claim_C7_run_driver.2.1 3 (fun t => if t = 2 then some false else some true)
      2 9 (by decide) (by decide) (by decide) ?_ (by decide)
    intro u hu1 hu2
    have hu : u = 1 := by omega
    subst hu
    rfl
  · exact claim_C7_run_driver.2.2 (fun _ => some true) 7 (fun _ => rfl)

/-- Counterexample to claim C7 as stated: a requested repeat count of 0
does not bound the run at 0 iterations — the guard `times and t > times`
is falsy for `times = 0`, so the driver keeps iterating (three
iterations ran here and the loop is still going). -/
theorem claim_C7_counterexample :
    runner (some 0) (fun _ => some true) 3 = ([1, 2, 3], none) := by
  rfl

/-- The filter on lines 48-51 of `process_taskdir`: the halt task name
is removed from the discovered task names before the dependency graph
is built (`tasks.remove` drops the first occurrence when present). -/
def orderableTasks (tasks : List String) (halt : String) : List String :=
  if halt ∈ tasks then tasks.erase halt else tasks

/-- Modelled from the spec: `TaskGraph.sequential_ordering` lives in
`lib/graph`, which is not part of src/. Per the spec it returns "a
single ordered sequence containing every task exactly once" for its
input set, so an admissible ordering is any permutation of the
orderable tasks. -/
def isSequentialOrdering (input order : List String) : Prop :=
  order.Perm input

theorem nodup_not_mem_erase {l : List String} {a : String} (h : l.Nodup) :
    a ∉ l.erase a := by
  induction l with
  | nil => simp
  | cons x xs ih =>
    rcases List.nodup_cons.mp h with ⟨hx, hxs⟩
    by_cases hxa : x = a
    · subst hxa
      rw [List.erase_cons_head]
      exact hx
    · rw [List.erase_cons_tail (by simp [hxa])]
      intro hmem
      rcases List.mem_cons.mp hmem with h1 | h2
      · exact hxa h1.symm
      · exact ih hxs h2

/-- Claim C8: the halt task never appears in the resolved order — it is
removed from the discovered (duplicate-free) directory listing before
dependency resolution, and any sequential ordering of the remaining
tasks therefore omits it. -/
theorem claim_C8_halt_excluded (tasks : List String) (halt : String)
    (order : List String) (hnd : tasks.Nodup)
    (hord : isSequentialOrdering (orderableTasks tasks halt) order) :
    halt ∉ order ∧ halt ∉ orderableTasks tasks halt := by
  have hm : halt ∉ orderableTasks tasks halt := by
    unfold orderableTasks
    by_cases hin : halt ∈ tasks
    · rw [if_pos hin]
      exact nodup_not_mem_erase hnd
    · rw [if_neg hin]
      exact hin
  have hp : List.Perm order (orderableTasks tasks halt) := hord
  exact ⟨fun hmem => hm (hp.mem_iff.mp hmem), hm⟩

/-- Witness for claim C8 on a two-entry task directory containing the
halt task. -/
theorem claim_C8_witness :
    (["stop", "a"] : List String).Nodup
    ∧ isSequentialOrdering (orderableTasks ["stop", "a"] "stop") ["a"]
    ∧ ("stop" ∉ (["a"] : List String)
       ∧ "stop" ∉ orderableTasks ["stop", "a"] "stop") :=
  ⟨by decide, List.Perm.refl ["a"],
    claim_C8_halt_excluded ["stop", "a"] "stop" ["a"] (by decide)
      (List.Perm.refl ["a"])⟩

/-- Trace events with the hook invocations dropped and the halt
command's own (ignored) outcome stripped: the main-task outcomes, the
halt and sleep control actions, and nothing that depends on what the
hooks or the halt command returned. -/
inductive CoreEv
| taskRun (tryn : Nat) (task : String) (cmd : Cmd) (max_time : Nat) (r : Outcome)
| halt (tryn : Nat) (cmd : Cmd) (max_time : Nat)
| sleepEv (tryn : Nat) (secs : Nat)
deriving DecidableEq

/-- Projection of one event to its hook-independent core. -/
def coreOf : Ev → Option CoreEv
  | Ev.taskRun tryn t cmd mt r => some (CoreEv.taskRun tryn t cmd mt r)
  | Ev.halt tryn cmd mt _ => some (CoreEv.halt tryn cmd mt)
  | Ev.sleepEv tryn s => some (CoreEv.sleepEv tryn s)
  | Ev.preHook _ _ _ => none
  | Ev.postHook _ _ _ => none

/-- Hook-independent core of a trace. -/
def coreEvents (evs : List Ev) : List CoreEv :=
  evs.filterMap coreOf

theorem coreEvents_append (a b : List Ev) :
    coreEvents (a ++ b) = coreEvents a ++ coreEvents b := by
  simp [coreEvents, List.filterMap_append]

theorem coreEvents_taskEvents_eq (c : RConfig) (ov : String → TaskOverride)
    (d : String) (os1 os2 : Oracles) (hres : os1.res = os2.res)
    (tryn : Nat) (t : String) :
    coreEvents (taskEvents c ov d os1 tryn t)
      = coreEvents (taskEvents c ov d os2 tryn t) := by
  rcases hp : c.pre_task_hook with _ | v <;> rcases hq : c.post_task_hook with _ | w <;>
    simp [taskEvents, coreEvents, coreOf, hp, hq, hres]

theorem runPass_hook_indep (c : RConfig) (ov : String → TaskOverride)
    (d : String) (os1 os2 : Oracles) (hres : os1.res = os2.res) (tryn : Nat) :
    ∀ tasks, (runPass c ov d os1 tryn tasks).2 = (runPass c ov d os2 tryn tasks).2
      ∧ coreEvents (runPass c ov d os1 tryn tasks).1
          = coreEvents (runPass c ov d os2 tryn tasks).1 := by
  intro tasks
  induction tasks with
  | nil => exact ⟨rfl, rfl⟩
  | cons t rest ih =>
    have hr2 : os2.res tryn t = os1.res tryn t := by rw [← hres]
    rcases hr : os1.res tryn t with _ | _ | _
    · simp only [runPass, hr, hr2.trans hr]
      refine ⟨ih.1, ?_⟩
      rw [coreEvents_append, coreEvents_append,
        coreEvents_taskEvents_eq c ov d os1 os2 hres tryn t, ih.2]
    · simp only [runPass, hr, hr2.trans hr]
      by_cases heq : tryn = (effConfig c (ov t)).max_tries
      · rw [if_pos heq, if_pos heq]
        refine ⟨rfl, ?_⟩
        rw [coreEvents_append, coreEvents_append,
          coreEvents_taskEvents_eq c ov d os1 os2 hres tryn t]
        rfl
      · rw [if_neg heq, if_neg heq]
        refine ⟨rfl, ?_⟩
        rw [coreEvents_append, coreEvents_append,
          coreEvents_taskEvents_eq c ov d os1 os2 hres tryn t]
    · simp only [runPass, hr, hr2.trans hr]
      refine ⟨trivial, ?_⟩
      rw [coreEvents_append, coreEvents_append,
        coreEvents_taskEvents_eq c ov d os1 os2 hres tryn t]
      rfl

theorem tryLoop_hook_indep (c : RConfig) (ov : String → TaskOverride)
    (d : String) (os1 os2 : Oracles) (hres : os1.res = os2.res)
    (tasks : List String) :
    ∀ fuel tryn,
      (tryLoop c ov d os1 tasks tryn fuel).2 = (tryLoop c ov d os2 tasks tryn fuel).2
      ∧ coreEvents (tryLoop c ov d os1 tasks tryn fuel).1
          = coreEvents (tryLoop c ov d os2 tasks tryn fuel).1 := by
  intro fuel
  induction fuel with
  | zero =>
    intro tryn
    exact ⟨rfl, rfl⟩
  | succ m ih =>
    intro tryn
    have hpass := runPass_hook_indep c ov d os1 os2 hres tryn tasks
    rw [tryLoop, tryLoop, ← hpass.1]
    rcases hp2 : (runPass c ov d os1 tryn tasks).2 with _ | _ | _
    · exact ⟨rfl, hpass.2⟩
    · exact ⟨rfl, hpass.2⟩
    · refine ⟨(ih (tryn + 1)).1, ?_⟩
      rw [coreEvents_append, coreEvents_append, hpass.2, (ih (tryn + 1)).2]

/-- Claim C9: the outcomes returned by the pre-task hook, the post-task
hook, and the halt command are never inspected — two runs that differ
only in those outcomes produce the same `process_taskdir` result and
identical hook-independent traces: the same main-task outcomes, the
same halt and sleep control flow, with no extra retries or failures. -/
theorem claim_C9_hook_outcomes_ignored (c : RConfig) (ov : String → TaskOverride)
    (d : String) (tasks : List String) (res : Nat → String → Outcome)
    (pre1 post1 : Nat → String → Outcome) (hlt1 : Nat → Outcome)
    (pre2 post2 : Nat → String → Outcome) (hlt2 : Nat → Outcome) :
    (process_taskdir c ov d ⟨res, pre1, post1, hlt1⟩ tasks).2
      = (process_taskdir c ov d ⟨res, pre2, post2, hlt2⟩ tasks).2
    ∧ coreEvents (process_taskdir c ov d ⟨res, pre1, post1, hlt1⟩ tasks).1
      = coreEvents (process_taskdir c ov d ⟨res, pre2, post2, hlt2⟩ tasks).1 := by
  exact tryLoop_hook_indep c ov d ⟨res, pre1, post1, hlt1⟩ ⟨res, pre2, post2, hlt2⟩
    rfl tasks c.max_tries 1

theorem runPass_all_ok (c : RConfig) (ov : String → TaskOverride)
    (d : String) (os : Oracles) (tryn : Nat) (tasks : List String)
    (hall : ∀ t ∈ tasks, os.res tryn t = Outcome.OK) :
    runPass c ov d os tryn tasks
      = (okRunEvents c ov d os tryn tasks, PassResult.completed) := by
  have h := runPass_append_ok c ov d os tryn [] tasks hall
  simpa [runPass, okRunEvents] using h

/-- Claim C10: a pass in which every task returns OK makes
`process_taskdir` report success for the whole run (whenever the
attempt range is nonempty, i.e. `max_tries` is at least 1); and every
pass either completes every task in order, abandons at a RETRY below
the task's threshold after an all-OK run of earlier tasks, or fails at
a HALT or at a RETRY with the counter at the task's threshold — the
tasks actually run are always an initial segment of the fixed resolved
order. -/
theorem claim_C10_pass_trichotomy :
    (∀ (c : RConfig) (ov : String → TaskOverride) (d : String) (os : Oracles)
        (tasks : List String), 1 ≤ c.max_tries →
        (∀ t ∈ tasks, os.res 1 t = Outcome.OK) →
        (process_taskdir c ov d os tasks).2 = some true)
    ∧ (∀ (c : RConfig) (ov : String → TaskOverride) (d : String) (os : Oracles)
        (tryn : Nat) (tasks : List String),
        ((runPass c ov d os tryn tasks).2 = PassResult.completed
          ∧ taskNames (runPass c ov d os tryn tasks).1 = tasks)
        ∨ ((runPass c ov d os tryn tasks).2 = PassResult.retryBreak
          ∧ ∃ pre t rest, tasks = pre ++ t :: rest
              ∧ taskNames (runPass c ov d os tryn tasks).1 = pre ++ [t]
              ∧ (∀ x ∈ pre, os.res tryn x = Outcome.OK)
              ∧ os.res tryn t = Outcome.RETRY
              ∧ tryn ≠ (effConfig c (ov t)).max_tries)
        ∨ ((runPass c ov d os tryn tasks).2 = PassResult.failed
          ∧ ∃ pre t rest, tasks = pre ++ t :: rest
              ∧ taskNames (runPass c ov d os tryn tasks).1 = pre ++ [t]
              ∧ (∀ x ∈ pre, os.res tryn x = Outcome.OK)
              ∧ (os.res tryn t = Outcome.HALT
                 ∨ (os.res tryn t = Outcome.RETRY
                    ∧ tryn = (effConfig c (ov t)).max_tries)))) := by
  constructor
  · intro c ov d os tasks hmt hall
    obtain ⟨m, hm⟩ : ∃ m, c.max_tries = m + 1 := ⟨c.max_tries - 1, by omega⟩
    have hpass := runPass_all_ok c ov d os 1 tasks hall
    have hloop := tryLoop_of_completed c ov d os tasks 1 m _ hpass
    rw [process_taskdir, hm, hloop]
  · intro c ov d os tryn tasks
    induction tasks with
    | nil =>
      exact Or.inl ⟨rfl, rfl⟩
    | cons t rest ih =>
      rcases hr : os.res tryn t with _ | _ | _
      · have hname : taskNames (runPass c ov d os tryn (t :: rest)).1
            = t :: taskNames (runPass c ov d os tryn rest).1 := by
          simp only [runPass, hr]
          rw [taskNames_append, taskNames_taskEvents]
          rfl
        have hsnd : (runPass c ov d os tryn (t :: rest)).2
            = (runPass c ov d os tryn rest).2 := by
          simp only [runPass, hr]
        rcases ih with ⟨h2, hn⟩ | ⟨h2, pre, u, rest2, hsplit, hn, hpre, hu, hne⟩
          | ⟨h2, pre, u, rest2, hsplit, hn, hpre, hu⟩
        · exact Or.inl ⟨hsnd.trans h2, by rw [hname, hn]⟩
        · refine Or.inr (Or.inl ⟨hsnd.trans h2, t :: pre, u, rest2,
            by rw [hsplit]; rfl, ?_, ?_, hu, hne⟩)
          · rw [hname, hn]; rfl
          · intro x hx
            rcases List.mem_cons.mp hx with h1 | h1
            · rw [h1]; exact hr
            · exact hpre x h1
        · refine Or.inr (Or.inr ⟨hsnd.trans h2, t :: pre, u, rest2,
            by rw [hsplit]; rfl, ?_, ?_, hu⟩)
          · rw [hname, hn]; rfl
          · intro x hx
            rcases List.mem_cons.mp hx with h1 | h1
            · rw [h1]; exact hr
            · exact hpre x h1
      · by_cases heq : tryn = (effConfig c (ov t)).max_tries
        · refine Or.inr (Or.inr ⟨?_, [], t, rest, rfl, ?_, by simp, Or.inr ⟨hr, heq⟩⟩)
          · simp only [runPass, hr, if_pos heq]
          · simp only [runPass, hr, if_pos heq]
            rw [taskNames_append, taskNames_taskEvents]
            rfl
        · refine Or.inr (Or.inl ⟨?_, [], t, rest, rfl, ?_, by simp, hr, heq⟩)
          · simp only [runPass, hr, if_neg heq]
          · simp only [runPass, hr, if_neg heq]
            rw [taskNames_append, taskNames_taskEvents]
            rfl
      · refine Or.inr (Or.inr ⟨?_, [], t, rest, rfl, ?_, by simp, Or.inl hr⟩)
        · simp only [runPass, hr]
        · simp only [runPass, hr]
          rw [taskNames_append, taskNames_taskEvents]
          rfl

/-- Concrete configuration for the claim C10 witness. -/
def cfgC10 : RConfig :=
  { max_time := 4, max_tries := 2, sleep_time := 1, interpreter := none
    pre_task_hook := none, post_task_hook := none, halt_task := "stop" }

/-- Concrete per-task overrides for the claim C10 witness. -/
def ovC10 : String → TaskOverride := fun _ => {}

/-- Concrete process outcomes for the claim C10 witness: everything
succeeds. -/
def osC10 : Oracles :=
  { res := fun _ _ => Outcome.OK
    preRes := fun _ _ => Outcome.OK
    postRes := fun _ _ => Outcome.OK
    haltRes := fun _ => Outcome.OK }

/-- Witness for claim C10: an all-OK two-task run succeeds. -/
theorem claim_C10_witness :
    1 ≤ cfgC10.max_tries
    ∧ (∀ t ∈ ["a", "b"], osC10.res 1 t = Outcome.OK)
    ∧ (process_taskdir cfgC10 ovC10 "dir" osC10 ["a", "b"]).2 = some true :=
  ⟨by decide, by decide,
    claim_C10_pass_trichotomy.1 cfgC10 ovC10 "dir" osC10 ["a", "b"]
      (by decide) (by decide)⟩
